import Mathlib

/-!
Verification development for the Identity-Mapped Memory Gateway
(`src/mirix_service.py`): a thin HTTP shim that maps a repository
identifier to a user record of an external memory engine and forwards
add/extract calls scoped to that user.

The external memory engine (the `mirix` library) is out of scope of the
repository; it is modelled here by an explicit state
(`EngineState`) and the four capability calls of spec section 6
(`listUsers`, `createUser`, `addMemory`, `extractMemoryForSystemPrompt`),
the last one as an arbitrary oracle since its behaviour is opaque.
The wrapper logic itself (`get_or_create_user`, the two endpoint
handlers, and the startup credential check) is translated directly from
`src/mirix_service.py`.
-/

/-- A user record owned by the memory engine: `{id, name}`
(spec section 3, MemoryUser). -/
structure MemoryUser where
  id : Nat
  name : String
deriving DecidableEq, Repr

/-- State of the external memory engine: the set of users it knows,
the stored memories (user id paired with text), and a fresh-id counter
for user creation. -/
structure EngineState where
  users : List MemoryUser
  memories : List (Nat × String)
  nextId : Nat
deriving DecidableEq, Repr

namespace Mirix

/-- Engine capability `listUsers() -> sequence of MemoryUser`
(spec section 6): returns the engine's full user list. -/
def list_users (s : EngineState) : List MemoryUser :=
  s.users

/-- Engine capability `createUser(name) -> MemoryUser` (spec section 6):
creates a user with the given name and a fresh id, appending it to the
user set. -/
def create_user (s : EngineState) (user_name : String) : MemoryUser × EngineState :=
  let u : MemoryUser := { id := s.nextId, name := user_name }
  (u, { s with users := s.users ++ [u], nextId := s.nextId + 1 })

/-- Engine capability `addMemory(text, userId) -> void` (spec section 6):
stores the text scoped to the user id. -/
def add (s : EngineState) (text : String) (user_id : Nat) : EngineState :=
  { s with memories := s.memories ++ [(user_id, text)] }

end Mirix

/-- The opaque extraction capability
`extractMemoryForSystemPrompt(conversation, userId) -> string | absent`
(spec section 6), modelled as an arbitrary oracle over the engine state. -/
abbrev ExtractOracle := String → Nat → EngineState → Option String

/-- Request body of `/mirix/add` (`AddMemoryRequest`,
src/mirix_service.py lines 24-26). -/
structure AddMemoryRequest where
  repo : String
  text : String
deriving DecidableEq, Repr

/-- Request body of `/mirix/system_prompt` (`SystemPromptRequest`,
src/mirix_service.py lines 28-30). -/
structure SystemPromptRequest where
  repo : String
  conversation : String
deriving DecidableEq, Repr

/-- Response body of `/mirix/add`: `{"status": "ok"}`. -/
structure AddResponse where
  status : String
deriving DecidableEq, Repr

/-- Response body of `/mirix/system_prompt`: `{"memory_context": ...}`.
The field is a total `String`, so it is always present and never null. -/
structure SystemPromptResponse where
  memory_context : String
deriving DecidableEq, Repr

/-- The `for user in users: if user.name == repo: return user` loop of
`get_or_create_user` (src/mirix_service.py lines 39-41): linear scan
returning the first user whose name equals `repo` (case-sensitive
string equality), if any. -/
def findUser (repo : String) : List MemoryUser → Option MemoryUser
  | [] => none
  | u :: rest => if u.name = repo then some u else findUser repo rest

/-- `get_or_create_user` (src/mirix_service.py lines 32-42): list the
engine's users, scan linearly for one named `repo`, return it if found,
otherwise create a user with that name. Returns the user together with
the engine state after the call. -/
def get_or_create_user (s : EngineState) (repo : String) : MemoryUser × EngineState :=
  match findUser repo (Mirix.list_users s) with
  | some u => (u, s)
  | none => Mirix.create_user s repo

/-- Python `memory_context or ""` (src/mirix_service.py line 58):
truthiness-based coalescing of an absent or empty extraction result to
the empty string. -/
def orElseEmpty (x : Option String) : String :=
  match x with
  | none => ""
  | some t => if t = "" then "" else t

/-- Endpoint handler `add_memory` for POST `/mirix/add`
(src/mirix_service.py lines 44-48): resolve the user for `req.repo`,
forward `req.text` to the engine's ingestion capability scoped to that
user's id, and return `{"status": "ok"}`. -/
def add_memory (s : EngineState) (req : AddMemoryRequest) : AddResponse × EngineState :=
  let r := get_or_create_user s req.repo
  (⟨"ok"⟩, Mirix.add r.2 req.text r.1.id)

/-- Endpoint handler `system_prompt` for POST `/mirix/system_prompt`
(src/mirix_service.py lines 50-58): resolve the user for `req.repo`,
run the engine's extraction capability on `req.conversation` scoped to
that user's id, and return `{"memory_context": result or ""}`. -/
def system_prompt (extract : ExtractOracle) (s : EngineState)
    (req : SystemPromptRequest) : SystemPromptResponse × EngineState :=
  let r := get_or_create_user s req.repo
  (⟨orElseEmpty (extract req.conversation r.1.id r.2)⟩, r.2)

/-- `os.getenv` over a modelled process environment (a key-value list;
`load_dotenv` has already merged the adjacent `.env` file into it). -/
def getenv (env : List (String × String)) (k : String) : Option String :=
  (env.find? (fun p => p.1 = k)).map Prod.snd

/-- `anthropic_key = os.getenv("ANTHROPIC_API_KEY")`
(src/mirix_service.py line 14). -/
def anthropic_key (env : List (String × String)) : Option String :=
  getenv env "ANTHROPIC_API_KEY"

/-- Module-level startup check (src/mirix_service.py lines 14-16):
`if not anthropic_key: raise RuntimeError(...)`. Python truthiness makes
both an absent and an empty credential fatal. On success the key is
returned for constructing the engine handle. -/
def startup (env : List (String × String)) : Except String String :=
  match anthropic_key env with
  | none => .error "ANTHROPIC_API_KEY not set in environment / .env"
  | some k =>
    if k = "" then .error "ANTHROPIC_API_KEY not set in environment / .env"
    else .ok k

/-- A fault schedule for the four engine capability calls: `some e`
means the corresponding call raises error `e` when invoked during the
request, `none` means it succeeds. Models engine communication errors
(spec section 7). -/
structure FaultSpec where
  listErr : Option String
  createErr : Option String
  addErr : Option String
  extractErr : Option String
deriving DecidableEq, Repr

/-- `get_or_create_user` under the fault model: each engine call either
raises (the exception propagates, unchanged, as the result) or behaves
as in the pure model. The engine state reached so far is returned in
either case, since engine-side effects are external and persist. -/
def get_or_create_userF (f : FaultSpec) (s : EngineState) (repo : String) :
    Except String MemoryUser × EngineState :=
  match f.listErr with
  | some e => (.error e, s)
  | none =>
    match findUser repo (Mirix.list_users s) with
    | some u => (.ok u, s)
    | none =>
      match f.createErr with
      | some e => (.error e, s)
      | none =>
        let r := Mirix.create_user s repo
        (.ok r.1, r.2)

/-- `add_memory` under the fault model: a failure in resolution or in
the ingestion call propagates unchanged as the request's outcome; no
retry, no fallback, no partial response. -/
def add_memoryF (f : FaultSpec) (s : EngineState) (req : AddMemoryRequest) :
    Except String AddResponse × EngineState :=
  match get_or_create_userF f s req.repo with
  | (.error e, s1) => (.error e, s1)
  | (.ok u, s1) =>
    match f.addErr with
    | some e => (.error e, s1)
    | none => (.ok ⟨"ok"⟩, Mirix.add s1 req.text u.id)

/-- `system_prompt` under the fault model: a failure in resolution or in
the extraction call propagates unchanged as the request's outcome. -/
def system_promptF (extract : ExtractOracle) (f : FaultSpec) (s : EngineState)
    (req : SystemPromptRequest) : Except String SystemPromptResponse × EngineState :=
  match get_or_create_userF f s req.repo with
  | (.error e, s1) => (.error e, s1)
  | (.ok u, s1) =>
    match f.extractErr with
    | some e => (.error e, s1)
    | none => (.ok ⟨orElseEmpty (extract req.conversation u.id s1)⟩, s1)

/-! ### Helper lemmas about the linear scan and the resolver -/

theorem findUser_eq_some {repo : String} {l : List MemoryUser} {u : MemoryUser}
    (h : findUser repo l = some u) : u ∈ l ∧ u.name = repo := by
  induction l with
  | nil => simp [findUser] at h
  | cons v rest ih =>
    by_cases hv : v.name = repo
    · rw [findUser, if_pos hv] at h
      injection h with h
      subst h
      exact ⟨List.mem_cons_self v rest, hv⟩
    · rw [findUser, if_neg hv] at h
      obtain ⟨hmem, hname⟩ := ih h
      exact ⟨List.mem_cons_of_mem v hmem, hname⟩

theorem findUser_eq_none {repo : String} {l : List MemoryUser} :
    findUser repo l = none ↔ ∀ u ∈ l, u.name ≠ repo := by
  induction l with
  | nil => simp [findUser]
  | cons v rest ih =>
    by_cases hv : v.name = repo
    · simp [findUser, hv]
    · simp [findUser, hv, ih]

theorem findUser_append {repo : String} {l1 l2 : List MemoryUser}
    (h : findUser repo l1 = none) :
    findUser repo (l1 ++ l2) = findUser repo l2 := by
  induction l1 with
  | nil => rfl
  | cons v rest ih =>
    rw [findUser] at h
    by_cases hv : v.name = repo
    · rw [if_pos hv] at h
      exact absurd h (by simp)
    · rw [if_neg hv] at h
      simp [findUser, hv, ih h]

theorem get_or_create_user_found {s : EngineState} {repo : String} {u : MemoryUser}
    (h : findUser repo s.users = some u) :
    get_or_create_user s repo = (u, s) := by
  simp [get_or_create_user, Mirix.list_users, h]

theorem get_or_create_user_missed {s : EngineState} {repo : String}
    (h : findUser repo s.users = none) :
    get_or_create_user s repo = Mirix.create_user s repo := by
  simp [get_or_create_user, Mirix.list_users, h]

theorem get_or_create_user_cases (s : EngineState) (repo : String) :
    ((∃ u ∈ Mirix.list_users s, u.name = repo) →
      (get_or_create_user s repo).2 = s ∧
      (get_or_create_user s repo).1 ∈ Mirix.list_users s ∧
      (get_or_create_user s repo).1.name = repo) ∧
    ((∀ u ∈ Mirix.list_users s, u.name ≠ repo) →
      get_or_create_user s repo = Mirix.create_user s repo ∧
      (get_or_create_user s repo).1.name = repo) := by
  constructor
  · intro hex
    cases hfu : findUser repo s.users with
    | none =>
      exfalso
      obtain ⟨u, hu, hname⟩ := hex
      exact (findUser_eq_none.mp hfu) u hu hname
    | some u =>
      obtain ⟨hmem, hname⟩ := findUser_eq_some hfu
      rw [get_or_create_user_found hfu]
      exact ⟨rfl, hmem, hname⟩
  · intro hall
    have hfu : findUser repo s.users = none := findUser_eq_none.mpr hall
    rw [get_or_create_user_missed hfu]
    exact ⟨rfl, rfl⟩

theorem countP_name_eq_zero {r : String} {l : List MemoryUser}
    (h : ∀ u ∈ l, u.name ≠ r) :
    l.countP (fun u => u.name == r) = 0 := by
  rw [List.countP_eq_zero]
  intro u hu
  simp [h u hu]

/-! ### Claim theorems -/

/-- C1: for every repository identifier `repo`, the resolver obtains the
full user list from the engine and scans it; if some listed user's name
equals `repo` exactly (case-sensitive equality) it returns that user and
leaves the engine state unchanged, and otherwise it calls the engine's
user-creation capability with name `repo` and returns the newly created
record. -/
theorem get_or_create_user_resolves (s : EngineState) (repo : String) :
    ((∃ u ∈ Mirix.list_users s, u.name = repo) →
      (get_or_create_user s repo).2 = s ∧
      (get_or_create_user s repo).1 ∈ Mirix.list_users s ∧
      (get_or_create_user s repo).1.name = repo) ∧
    ((∀ u ∈ Mirix.list_users s, u.name ≠ repo) →
      get_or_create_user s repo = Mirix.create_user s repo ∧
      (get_or_create_user s repo).1.name = repo) :=
  get_or_create_user_cases s repo

theorem get_or_create_user_resolves_witness :
    ((get_or_create_user ⟨[⟨7, "a"⟩], [], 8⟩ "a").2 = ⟨[⟨7, "a"⟩], [], 8⟩ ∧
      (get_or_create_user ⟨[⟨7, "a"⟩], [], 8⟩ "a").1 ∈
        Mirix.list_users ⟨[⟨7, "a"⟩], [], 8⟩ ∧
      (get_or_create_user ⟨[⟨7, "a"⟩], [], 8⟩ "a").1.name = "a") ∧
    (get_or_create_user ⟨[], [], 0⟩ "b" = Mirix.create_user ⟨[], [], 0⟩ "b" ∧
      (get_or_create_user ⟨[], [], 0⟩ "b").1.name = "b") :=
  ⟨(get_or_create_user_resolves ⟨[⟨7, "a"⟩], [], 8⟩ "a").1
      ⟨⟨7, "a"⟩, by simp [Mirix.list_users], rfl⟩,
    (get_or_create_user_resolves ⟨[], [], 0⟩ "b").2
      (by simp [Mirix.list_users])⟩

/-- C2: under sequential use, for an identifier `repo` not yet present,
one resolver call creates exactly one user named `repo` (and exactly one
new user overall), and a second call returns a user with the same id and
leaves the engine state unchanged, creating no additional user. -/
theorem get_or_create_user_idempotent (s : EngineState) (repo : String)
    (hfresh : ∀ u ∈ Mirix.list_users s, u.name ≠ repo) :
    ((get_or_create_user s repo).2.users.countP (fun u => u.name == repo) = 1) ∧
    ((get_or_create_user s repo).2.users.length = s.users.length + 1) ∧
    ((get_or_create_user (get_or_create_user s repo).2 repo).1.id
        = (get_or_create_user s repo).1.id) ∧
    ((get_or_create_user (get_or_create_user s repo).2 repo).2
        = (get_or_create_user s repo).2) := by
  have hfu : findUser repo s.users = none := findUser_eq_none.mpr hfresh
  have h0 : s.users.countP (fun u => u.name == repo) = 0 :=
    countP_name_eq_zero (fun u hu => hfresh u hu)
  have hs1u : (Mirix.create_user s repo).2.users
      = s.users ++ [⟨s.nextId, repo⟩] := rfl
  have hfu2 : findUser repo (Mirix.create_user s repo).2.users
      = some ⟨s.nextId, repo⟩ := by
    rw [hs1u, findUser_append hfu]
    simp [findUser]
  have hsecond := get_or_create_user_found hfu2
  rw [get_or_create_user_missed hfu]
  refine ⟨?_, ?_, ?_, ?_⟩
  · rw [hs1u, List.countP_append, h0]
    simp [List.countP_cons]
  · rw [hs1u]
    simp
  · rw [hsecond]
    rfl
  · rw [hsecond]

theorem get_or_create_user_idempotent_witness :
    ((get_or_create_user ⟨[], [], 0⟩ "a").2.users.countP
        (fun u => u.name == "a") = 1) ∧
    ((get_or_create_user ⟨[], [], 0⟩ "a").2.users.length
        = (EngineState.mk [] [] 0).users.length + 1) ∧
    ((get_or_create_user (get_or_create_user ⟨[], [], 0⟩ "a").2 "a").1.id
        = (get_or_create_user ⟨[], [], 0⟩ "a").1.id) ∧
    ((get_or_create_user (get_or_create_user ⟨[], [], 0⟩ "a").2 "a").2
        = (get_or_create_user ⟨[], [], 0⟩ "a").2) :=
  get_or_create_user_idempotent ⟨[], [], 0⟩ "a" (by simp [Mirix.list_users])

/-- C3: the `system_prompt` endpoint's `memory_context` field is the
literal empty string when the extraction capability yields an absent or
empty result, and otherwise it is exactly the extracted text; the field
is a total `String`, so it is never null and never omitted. -/
theorem system_prompt_coalesces (extract : ExtractOracle) (s : EngineState)
    (req : SystemPromptRequest) :
    (extract req.conversation (get_or_create_user s req.repo).1.id
        (get_or_create_user s req.repo).2 = none →
      (system_prompt extract s req).1.memory_context = "") ∧
    (extract req.conversation (get_or_create_user s req.repo).1.id
        (get_or_create_user s req.repo).2 = some "" →
      (system_prompt extract s req).1.memory_context = "") ∧
    (∀ t, t ≠ "" →
      extract req.conversation (get_or_create_user s req.repo).1.id
        (get_or_create_user s req.repo).2 = some t →
      (system_prompt extract s req).1.memory_context = t) := by
  refine ⟨fun h => ?_, fun h => ?_, fun t ht h => ?_⟩
  · simp [system_prompt, orElseEmpty, h]
  · simp [system_prompt, orElseEmpty, h]
  · simp [system_prompt, orElseEmpty, h, ht]

theorem system_prompt_coalesces_witness :
    (system_prompt (fun _ _ _ => none) ⟨[], [], 0⟩ ⟨"a", "c"⟩).1.memory_context
        = "" ∧
    (system_prompt (fun _ _ _ => some "") ⟨[], [], 0⟩ ⟨"a", "c"⟩).1.memory_context
        = "" ∧
    (system_prompt (fun _ _ _ => some "m") ⟨[], [], 0⟩ ⟨"a", "c"⟩).1.memory_context
        = "m" :=
  ⟨(system_prompt_coalesces (fun _ _ _ => none) ⟨[], [], 0⟩ ⟨"a", "c"⟩).1 rfl,
    (system_prompt_coalesces (fun _ _ _ => some "") ⟨[], [], 0⟩ ⟨"a", "c"⟩).2.1 rfl,
    (system_prompt_coalesces (fun _ _ _ => some "m") ⟨[], [], 0⟩ ⟨"a", "c"⟩).2.2 "m"
      (by simp) rfl⟩

/-- C4: for both endpoints, a failure of any engine capability call that
the request reaches (listing, creation, ingestion, extraction)
propagates unchanged to the caller as the request's outcome: no retry,
no fallback, and no partial result is returned. -/
theorem engine_failures_propagate (f : FaultSpec) (s : EngineState)
    (reqA : AddMemoryRequest) (reqS : SystemPromptRequest)
    (extract : ExtractOracle) (e : String) :
    (f.listErr = some e →
      (add_memoryF f s reqA).1 = .error e ∧
      (system_promptF extract f s reqS).1 = .error e) ∧
    (f.listErr = none → findUser reqA.repo s.users = none →
      f.createErr = some e →
      (add_memoryF f s reqA).1 = .error e) ∧
    (f.listErr = none → findUser reqS.repo s.users = none →
      f.createErr = some e →
      (system_promptF extract f s reqS).1 = .error e) ∧
    (∀ u s1, get_or_create_userF f s reqA.repo = (.ok u, s1) →
      f.addErr = some e →
      (add_memoryF f s reqA).1 = .error e) ∧
    (∀ u s1, get_or_create_userF f s reqS.repo = (.ok u, s1) →
      f.extractErr = some e →
      (system_promptF extract f s reqS).1 = .error e) := by
  refine ⟨fun hl => ⟨?_, ?_⟩, fun hl hf hc => ?_, fun hl hf hc => ?_,
    fun u s1 hres ha => ?_, fun u s1 hres hx => ?_⟩
  · simp [add_memoryF, get_or_create_userF, hl]
  · simp [system_promptF, get_or_create_userF, hl]
  · simp [add_memoryF, get_or_create_userF, Mirix.list_users, hl, hf, hc]
  · simp [system_promptF, get_or_create_userF, Mirix.list_users, hl, hf, hc]
  · simp [add_memoryF, hres, ha]
  · simp [system_promptF, hres, hx]

theorem engine_failures_propagate_witness :
    (add_memoryF ⟨some "boom", none, none, none⟩ ⟨[], [], 0⟩ ⟨"a", "t"⟩).1
        = .error "boom" ∧
    (system_promptF (fun _ _ _ => none) ⟨some "boom", none, none, none⟩
        ⟨[], [], 0⟩ ⟨"a", "c"⟩).1 = .error "boom" ∧
    (add_memoryF ⟨none, some "boom", none, none⟩ ⟨[], [], 0⟩ ⟨"a", "t"⟩).1
        = .error "boom" ∧
    (system_promptF (fun _ _ _ => none) ⟨none, some "boom", none, none⟩
        ⟨[], [], 0⟩ ⟨"a", "c"⟩).1 = .error "boom" ∧
    (add_memoryF ⟨none, none, some "boom", none⟩ ⟨[], [], 0⟩ ⟨"a", "t"⟩).1
        = .error "boom" ∧
    (system_promptF (fun _ _ _ => none) ⟨none, none, none, some "boom"⟩
        ⟨[], [], 0⟩ ⟨"a", "c"⟩).1 = .error "boom" :=
  ⟨((engine_failures_propagate ⟨some "boom", none, none, none⟩ ⟨[], [], 0⟩
      ⟨"a", "t"⟩ ⟨"a", "c"⟩ (fun _ _ _ => none) "boom").1 rfl).1,
    ((engine_failures_propagate ⟨some "boom", none, none, none⟩ ⟨[], [], 0⟩
      ⟨"a", "t"⟩ ⟨"a", "c"⟩ (fun _ _ _ => none) "boom").1 rfl).2,
    (engine_failures_propagate ⟨none, some "boom", none, none⟩ ⟨[], [], 0⟩
      ⟨"a", "t"⟩ ⟨"a", "c"⟩ (fun _ _ _ => none) "boom").2.1 rfl rfl rfl,
    (engine_failures_propagate ⟨none, some "boom", none, none⟩ ⟨[], [], 0⟩
      ⟨"a", "t"⟩ ⟨"a", "c"⟩ (fun _ _ _ => none) "boom").2.2.1 rfl rfl rfl,
    (engine_failures_propagate ⟨none, none, some "boom", none⟩ ⟨[], [], 0⟩
      ⟨"a", "t"⟩ ⟨"a", "c"⟩ (fun _ _ _ => none) "boom").2.2.2.1
      ⟨0, "a"⟩ ⟨[⟨0, "a"⟩], [], 1⟩ rfl rfl,
    (engine_failures_propagate ⟨none, none, none, some "boom"⟩ ⟨[], [], 0⟩
      ⟨"a", "t"⟩ ⟨"a", "c"⟩ (fun _ _ _ => none) "boom").2.2.2.2
      ⟨0, "a"⟩ ⟨[⟨0, "a"⟩], [], 1⟩ rfl rfl⟩

/-- C5: for every name `r`, if at most one engine user is named `r`,
then after the resolver or either endpoint handler runs (sequentially),
still at most one engine user is named `r`: every operation preserves
the per-identifier uniqueness invariant. -/
theorem user_uniqueness_preserved (s : EngineState) (repo r : String)
    (reqA : AddMemoryRequest) (reqS : SystemPromptRequest)
    (extract : ExtractOracle)
    (h : s.users.countP (fun u => u.name == r) ≤ 1) :
    ((get_or_create_user s repo).2.users.countP (fun u => u.name == r) ≤ 1) ∧
    ((add_memory s reqA).2.users.countP (fun u => u.name == r) ≤ 1) ∧
    ((system_prompt extract s reqS).2.users.countP (fun u => u.name == r) ≤ 1) := by
  have key : ∀ repo0 : String,
      (get_or_create_user s repo0).2.users.countP (fun u => u.name == r) ≤ 1 := by
    intro repo0
    cases hfu : findUser repo0 s.users with
    | some u =>
      rw [get_or_create_user_found hfu]
      exact h
    | none =>
      rw [get_or_create_user_missed hfu]
      have husers : (Mirix.create_user s repo0).2.users
          = s.users ++ [⟨s.nextId, repo0⟩] := rfl
      rw [husers, List.countP_append]
      by_cases hrr : repo0 = r
      · subst hrr
        have h0 : s.users.countP (fun u => u.name == repo0) = 0 :=
          countP_name_eq_zero (findUser_eq_none.mp hfu)
        rw [h0]
        simp [List.countP_cons]
      · have h1 : List.countP (fun u : MemoryUser => u.name == r)
            [⟨s.nextId, repo0⟩] = 0 := by
          simp [List.countP_cons, hrr]
        rw [h1]
        simpa using h
  refine ⟨key repo, ?_, ?_⟩
  · exact key reqA.repo
  · exact key reqS.repo

theorem user_uniqueness_preserved_witness :
    ((get_or_create_user ⟨[⟨0, "a"⟩], [], 1⟩ "a").2.users.countP
        (fun u => u.name == "a") ≤ 1) ∧
    ((add_memory ⟨[⟨0, "a"⟩], [], 1⟩ ⟨"a", "t"⟩).2.users.countP
        (fun u => u.name == "a") ≤ 1) ∧
    ((system_prompt (fun _ _ _ => none) ⟨[⟨0, "a"⟩], [], 1⟩
        ⟨"a", "c"⟩).2.users.countP (fun u => u.name == "a") ≤ 1) :=
  user_uniqueness_preserved ⟨[⟨0, "a"⟩], [], 1⟩ "a" "a" ⟨"a", "t"⟩ ⟨"a", "c"⟩
    (fun _ _ _ => none) (by simp [List.countP_cons])

/-- C6: every successful `/mirix/add` request resolves the user for
`req.repo`, forwards `req.text` to the engine's ingestion capability
scoped to that user's id, and returns the fixed acknowledgment
`{"status": "ok"}`, regardless of the input values. -/
theorem add_memory_contract (s : EngineState) (req : AddMemoryRequest) :
    (add_memory s req).1 = ⟨"ok"⟩ ∧
    (add_memory s req).2.users = (get_or_create_user s req.repo).2.users ∧
    (add_memory s req).2.memories =
      (get_or_create_user s req.repo).2.memories ++
        [((get_or_create_user s req.repo).1.id, req.text)] :=
  ⟨rfl, rfl, rfl⟩

/-- C7: if the credential is absent from the (merged) process
environment at startup, the startup sequence raises a fatal error and
never yields a running service: the failure happens before any request
is served, not per-request. -/
theorem startup_fails_without_credential (env : List (String × String))
    (h : anthropic_key env = none) :
    startup env = .error "ANTHROPIC_API_KEY not set in environment / .env" ∧
    ∀ k, startup env ≠ .ok k := by
  refine ⟨by simp [startup, h], fun k => by simp [startup, h]⟩

theorem startup_fails_without_credential_witness :
    startup [] = .error "ANTHROPIC_API_KEY not set in environment / .env" :=
  (startup_fails_without_credential [] rfl).1

/-- C8: no operation of the component mutates or deletes an existing
user record: after the resolver or either endpoint handler runs, the
engine's user list is the original list with (at most) new records
appended, so every pre-existing user record is unchanged. -/
theorem users_only_grow (s : EngineState) (repo : String)
    (reqA : AddMemoryRequest) (reqS : SystemPromptRequest)
    (extract : ExtractOracle) :
    (∃ t, (get_or_create_user s repo).2.users = s.users ++ t) ∧
    (∃ t, (add_memory s reqA).2.users = s.users ++ t) ∧
    (∃ t, (system_prompt extract s reqS).2.users = s.users ++ t) := by
  have key : ∀ repo0 : String,
      ∃ t, (get_or_create_user s repo0).2.users = s.users ++ t := by
    intro repo0
    cases hfu : findUser repo0 s.users with
    | some u =>
      rw [get_or_create_user_found hfu]
      exact ⟨[], by simp⟩
    | none =>
      rw [get_or_create_user_missed hfu]
      exact ⟨[⟨s.nextId, repo0⟩], rfl⟩
  exact ⟨key repo, key reqA.repo, key reqS.repo⟩

/-- C9: the resolver is total over all strings and takes no error branch
on the empty identifier: for input `""` it scans for a user named `""`
exactly as for any other string, returning a match when present and
creating a user named `""` on a miss. -/
theorem get_or_create_user_total_empty_string (s : EngineState) :
    ((∃ u ∈ Mirix.list_users s, u.name = "") →
      (get_or_create_user s "").2 = s ∧
      (get_or_create_user s "").1 ∈ Mirix.list_users s ∧
      (get_or_create_user s "").1.name = "") ∧
    ((∀ u ∈ Mirix.list_users s, u.name ≠ "") →
      get_or_create_user s "" = Mirix.create_user s "" ∧
      (get_or_create_user s "").1.name = "") :=
  get_or_create_user_cases s ""

theorem get_or_create_user_total_empty_string_witness :
    ((get_or_create_user ⟨[⟨3, ""⟩], [], 4⟩ "").2 = ⟨[⟨3, ""⟩], [], 4⟩ ∧
      (get_or_create_user ⟨[⟨3, ""⟩], [], 4⟩ "").1 ∈
        Mirix.list_users ⟨[⟨3, ""⟩], [], 4⟩ ∧
      (get_or_create_user ⟨[⟨3, ""⟩], [], 4⟩ "").1.name = "") ∧
    (get_or_create_user ⟨[], [], 0⟩ "" = Mirix.create_user ⟨[], [], 0⟩ "" ∧
      (get_or_create_user ⟨[], [], 0⟩ "").1.name = "") :=
  ⟨(get_or_create_user_total_empty_string ⟨[⟨3, ""⟩], [], 4⟩).1
      ⟨⟨3, ""⟩, by simp [Mirix.list_users], rfl⟩,
    (get_or_create_user_total_empty_string ⟨[], [], 0⟩).2
      (by simp [Mirix.list_users])⟩

/-- C10: requests are not atomic with respect to user creation: when the
resolver has just created the user for an unseen repo and the subsequent
ingestion (resp. extraction) call fails, the request's outcome is that
error, yet the newly created user remains in the engine's user set —
creation is not rolled back. -/
theorem creation_persists_on_later_failure
    (f fS : FaultSpec) (s : EngineState)
    (reqA : AddMemoryRequest) (reqS : SystemPromptRequest)
    (extract : ExtractOracle) (e eS : String)
    (hl : f.listErr = none) (hc : f.createErr = none)
    (ha : f.addErr = some e)
    (hfA : findUser reqA.repo s.users = none)
    (hlS : fS.listErr = none) (hcS : fS.createErr = none)
    (hx : fS.extractErr = some eS)
    (hfS : findUser reqS.repo s.users = none) :
    ((add_memoryF f s reqA).1 = .error e ∧
      ∃ u ∈ (add_memoryF f s reqA).2.users, u.name = reqA.repo) ∧
    ((system_promptF extract fS s reqS).1 = .error eS ∧
      ∃ u ∈ (system_promptF extract fS s reqS).2.users, u.name = reqS.repo) := by
  have hresA : get_or_create_userF f s reqA.repo =
      (.ok ⟨s.nextId, reqA.repo⟩, (Mirix.create_user s reqA.repo).2) := by
    simp [get_or_create_userF, Mirix.list_users, hl, hfA, hc, Mirix.create_user]
  have hresS : get_or_create_userF fS s reqS.repo =
      (.ok ⟨s.nextId, reqS.repo⟩, (Mirix.create_user s reqS.repo).2) := by
    simp [get_or_create_userF, Mirix.list_users, hlS, hfS, hcS, Mirix.create_user]
  have hrunA : add_memoryF f s reqA
      = (.error e, (Mirix.create_user s reqA.repo).2) := by
    simp [add_memoryF, hresA, ha]
  have hrunS : system_promptF extract fS s reqS
      = (.error eS, (Mirix.create_user s reqS.repo).2) := by
    simp [system_promptF, hresS, hx]
  constructor
  · rw [hrunA]
    refine ⟨rfl, ⟨s.nextId, reqA.repo⟩, ?_, rfl⟩
    simp [Mirix.create_user]
  · rw [hrunS]
    refine ⟨rfl, ⟨s.nextId, reqS.repo⟩, ?_, rfl⟩
    simp [Mirix.create_user]

theorem creation_persists_on_later_failure_witness :
    ((add_memoryF ⟨none, none, some "boom", none⟩ ⟨[], [], 0⟩ ⟨"a", "t"⟩).1
        = .error "boom" ∧
      ∃ u ∈ (add_memoryF ⟨none, none, some "boom", none⟩ ⟨[], [], 0⟩
          ⟨"a", "t"⟩).2.users, u.name = "a") ∧
    ((system_promptF (fun _ _ _ => none) ⟨none, none, none, some "bang"⟩
        ⟨[], [], 0⟩ ⟨"b", "c"⟩).1 = .error "bang" ∧
      ∃ u ∈ (system_promptF (fun _ _ _ => none) ⟨none, none, none, some "bang"⟩
          ⟨[], [], 0⟩ ⟨"b", "c"⟩).2.users, u.name = "b") :=
  creation_persists_on_later_failure
    ⟨none, none, some "boom", none⟩ ⟨none, none, none, some "bang"⟩
    ⟨[], [], 0⟩ ⟨"a", "t"⟩ ⟨"b", "c"⟩ (fun _ _ _ => none) "boom" "bang"
    rfl rfl rfl rfl rfl rfl rfl rfl
